import Mathlib

/-!
Verification of the recipe-book core: a shallow embedding of
`src/measurements.rs` and `src/recipe_util.rs`.

Modelling conventions:
* Rust `&str` values are embedded as `List Char`.  All inputs touched by the
  claims are ASCII, where Rust byte indices coincide with character indices.
* Rust `u64` values are embedded as `Nat`; the `as u64` cast (truncating,
  saturating) is made explicit in `fracAsU64`.
* The `f64` amount arithmetic in the two `FromStr` parsers is modelled by
  exact fraction arithmetic (`Frac`): `amount.parse::<f64>()` becomes a
  decimal-literal parser producing an exact numerator/denominator pair, and
  the multiplication by the integral unit factor is exact.  All concrete
  values appearing in the claims are exactly representable in `f64`, so the
  model and the floating-point code agree on them.  The special literals
  `inf`/`nan` accepted by Rust's float grammar are not modelled.
* `char::is_whitespace` / `str::trim` are modelled on their ASCII subset
  (space, tab, carriage return, newline), via `Char.isWhitespace`.
* `str::to_lowercase` is modelled on its ASCII subset (`asciiLower`).
-/

deriving instance DecidableEq for Except

/-! ## Generic list-of-characters helpers (models of Rust `&str` methods) -/

/-- Model of Rust `str::split_once` generalised to a predicate:
splits at the first character satisfying `p`, dropping that character. -/
def splitOnceP (p : Char → Bool) : List Char → Option (List Char × List Char)
  | [] => none
  | c :: t =>
    if p c then some ([], t)
    else (splitOnceP p t).map (fun r => (c :: r.1, r.2))

/-- Model of Rust `str::split_once(sep)` for a single-character pattern. -/
def splitOnce (sep : Char) (l : List Char) : Option (List Char × List Char) :=
  splitOnceP (fun c => c == sep) l

/-- Model of Rust `str::find(pat)`: index of the first occurrence of the
substring `sub`, if any. -/
def findSub (sub : List Char) : List Char → Option Nat
  | [] => if sub.isEmpty then some 0 else none
  | c :: t =>
    if sub.isPrefixOf (c :: t) then some 0
    else (findSub sub t).map (· + 1)

/-- Model of Rust `str::contains(pat)`. -/
def containsSub (sub l : List Char) : Bool :=
  (findSub sub l).isSome

/-- Model of Rust `str::trim_start` (ASCII whitespace). -/
def trimStartL (l : List Char) : List Char :=
  l.dropWhile Char.isWhitespace

/-- Model of Rust `str::trim_end` (ASCII whitespace). -/
def trimEndL (l : List Char) : List Char :=
  (l.reverse.dropWhile Char.isWhitespace).reverse

/-- Model of Rust `str::trim` (ASCII whitespace). -/
def trimBoth (l : List Char) : List Char :=
  trimEndL (trimStartL l)

/-- Model of Rust `str::trim_end_matches('s')`: repeatedly removes every
trailing `'s'`. -/
def stripTrailingS (l : List Char) : List Char :=
  (l.reverse.dropWhile (· == 's')).reverse

/-- ASCII lowercase map, the ASCII subset of Rust `str::to_lowercase`. -/
def asciiLower : Char → Char
  | 'A' => 'a' | 'B' => 'b' | 'C' => 'c' | 'D' => 'd' | 'E' => 'e'
  | 'F' => 'f' | 'G' => 'g' | 'H' => 'h' | 'I' => 'i' | 'J' => 'j'
  | 'K' => 'k' | 'L' => 'l' | 'M' => 'm' | 'N' => 'n' | 'O' => 'o'
  | 'P' => 'p' | 'Q' => 'q' | 'R' => 'r' | 'S' => 's' | 'T' => 't'
  | 'U' => 'u' | 'V' => 'v' | 'W' => 'w' | 'X' => 'x' | 'Y' => 'y'
  | 'Z' => 'z'
  | c => c

/-- Lowercase an entire string (model of `str::to_lowercase` on ASCII). -/
def toLowerL (l : List Char) : List Char :=
  l.map asciiLower

/-! ## Exact fraction arithmetic (model of the `f64` computations) -/

/-- An exact (unreduced) fraction; `den` is always positive by
construction.  This replaces the `f64` arithmetic of the source, exactly. -/
structure Frac where
  num : Int
  den : Nat
  deriving DecidableEq, Repr

/-- Multiplication of a fraction by an integral unit factor (models
`amount * FACTOR as f64`). -/
def Frac.mulNat (f : Frac) (n : Nat) : Frac :=
  ⟨f.num * n, f.den⟩

/-- Model of Rust's `as u64` cast applied to a non-NaN float value:
truncation toward zero with saturation at the `u64` bounds. -/
def fracAsU64 (f : Frac) : Nat :=
  if f.num < 0 then 0
  else min (f.num.toNat / f.den) (2 ^ 64 - 1)

/-! ## Decimal numeral parsing (model of `str::parse::<f64>()`) -/

/-- Numeric value of a list of decimal digit characters. -/
def digitsVal (l : List Char) : Nat :=
  l.foldl (fun a c => a * 10 + (c.toNat - 48)) 0

/-- All characters are decimal digits. -/
def allDigits (l : List Char) : Bool :=
  l.all Char.isDigit

/-- Parse the mantissa part of a float literal: digits with an optional
decimal point, at least one digit present. -/
def parseMantissa (l : List Char) : Option Frac :=
  match splitOnce '.' l with
  | none =>
    if !l.isEmpty && allDigits l then some ⟨digitsVal l, 1⟩ else none
  | some (a, b) =>
    if (!a.isEmpty || !b.isEmpty) && allDigits a && allDigits b then
      some ⟨digitsVal (a ++ b), 10 ^ b.length⟩
    else none

/-- Parse the exponent part of a float literal (after `e`/`E`). -/
def parseExponent (l : List Char) : Option Int :=
  match l with
  | '+' :: t => if !t.isEmpty && allDigits t then some (digitsVal t) else none
  | '-' :: t => if !t.isEmpty && allDigits t then some (-(digitsVal t : Int)) else none
  | t => if !t.isEmpty && allDigits t then some (digitsVal t) else none

/-- Apply a decimal exponent to a fraction, exactly. -/
def applyExp (f : Frac) (e : Int) : Frac :=
  if 0 ≤ e then ⟨f.num * (10 ^ e.toNat : Nat), f.den⟩
  else ⟨f.num, f.den * 10 ^ (-e).toNat⟩

/-- Negate a fraction. -/
def Frac.neg (f : Frac) : Frac := ⟨-f.num, f.den⟩

/-- Parse an unsigned float body (mantissa with optional exponent). -/
def parseUnsigned (l : List Char) : Option Frac :=
  match splitOnceP (fun c => c == 'e' || c == 'E') l with
  | none => parseMantissa l
  | some (m, e) =>
    match parseMantissa m, parseExponent e with
    | some fm, some fe => some (applyExp fm fe)
    | _, _ => none

/-- Model of Rust `str::parse::<f64>()` restricted to finite decimal
literals (`inf`/`nan` are not modelled); the result is exact. -/
def parseAmount (l : List Char) : Option Frac :=
  match l with
  | '+' :: t => parseUnsigned t
  | '-' :: t => (parseUnsigned t).map Frac.neg
  | t => parseUnsigned t

/-! ## Measurement types (from `src/measurements.rs`) -/

/-- The two zero-size unit-system tags `Metric` / `Imperial`. -/
inductive UnitSystem where
  | Metric : UnitSystem
  | Imperial : UnitSystem
  deriving DecidableEq, Repr

/-- The error enum `MeasurementError`. -/
inductive MeasurementError where
  | EmptyString : MeasurementError
  | UnknownUnit : MeasurementError
  | InvalidFormat : MeasurementError
  | CustomString : List Char → MeasurementError
  deriving DecidableEq, Repr

/-- `Weight<T>`: weight in milligrams, phantom-tagged by a unit system. -/
structure Weight (T : UnitSystem) where
  val : Nat
  deriving DecidableEq, Repr

/-- `Volume<T>`: volume in 1/1000 mL, phantom-tagged by a unit system. -/
structure Volume (T : UnitSystem) where
  val : Nat
  deriving DecidableEq, Repr

def Weight.POUND : Nat := 453592
def Weight.OUNCE : Nat := 28349
def Weight.OUNCE_LIMIT : Nat := Weight.OUNCE * 8
def Weight.POUND_LIMIT : Nat := Weight.POUND * 4

def Weight.get {T : UnitSystem} (w : Weight T) : Nat := w.val

def Weight.as_imperial {T : UnitSystem} (w : Weight T) : Weight .Imperial :=
  ⟨w.val⟩

def Weight.as_metric {T : UnitSystem} (w : Weight T) : Weight .Metric :=
  ⟨w.val⟩

def Volume.TSP : Nat := 4928
def Volume.TBSP : Nat := 14786
def Volume.OUNCE : Nat := 29573
def Volume.RICE_CUP : Nat := 180000
def Volume.CUP : Nat := 236588
def Volume.QUART : Nat := 946353

def Volume.LOWEST_LIMIT : Nat := Volume.TSP / 15
def Volume.E_TSP_LIMIT : Nat := Volume.TSP * 12 / 80
def Volume.Q_TSP_LIMIT : Nat := Volume.TSP * 12 / 40
def Volume.H_TSP_LIMIT : Nat := Volume.TSP * 12 / 20
def Volume.TQ_TSP_LIMIT : Nat := Volume.TSP * 120000 / 133333
def Volume.TSP_LIMIT : Nat := Volume.TSP * 12 / 10
def Volume.H_TBSP_LIMIT : Nat := Volume.TBSP * 12 / 20
def Volume.TBSP_LIMIT : Nat := Volume.TBSP * 12 / 10
def Volume.OUNCE_LIMIT : Nat := Volume.OUNCE * 8
def Volume.CUP_LIMIT : Nat := Volume.QUART * 190 / 200
def Volume.QUART_LIMIT : Nat := Volume.QUART * 5

def Volume.get {T : UnitSystem} (v : Volume T) : Nat := v.val

def Volume.as_imperial {T : UnitSystem} (v : Volume T) : Volume .Imperial :=
  ⟨v.val⟩

def Volume.as_metric {T : UnitSystem} (v : Volume T) : Volume .Metric :=
  ⟨v.val⟩

/-! ## The quantity text parsers (`FromStr for Weight` / `FromStr for Volume`) -/

/-- The `last.split_once(' ').map(|(u, _)| u).unwrap_or(last)` step shared by
both parsers: the first space-separated token of the remainder. -/
def firstTok (last : List Char) : List Char :=
  match splitOnce ' ' last with
  | some (u, _) => u
  | none => last

/-- The shared unit-token normalisation: first space-separated token of the
remainder, trimmed, lowercased, with every trailing `'s'` removed. -/
def unitTokenOf (last : List Char) : List Char :=
  stripTrailingS (toLowerL (trimBoth (firstTok last)))

/-- The weight unit alias table of `Weight::from_str` (canonical factor in
milligrams per unit). -/
def weightUnitFactor (u : List Char) : Option Nat :=
  if u = "mg".data ∨ u = "milligram".data then some 1
  else if u = "cg".data ∨ u = "centigram".data then some 10
  else if u = "dg".data ∨ u = "decigram".data then some 100
  else if u = "g".data ∨ u = "gram".data then some 1000
  else if u = "kg".data ∨ u = "kilogram".data then some 1000000
  else if u = "oz".data ∨ u = "ounce".data then some Weight.OUNCE
  else if u = "pound".data ∨ u = "lb".data then some Weight.POUND
  else none

/-- `impl FromStr for Weight` from `src/measurements.rs`. -/
def Weight.from_str (s : List Char) : Except MeasurementError (Weight .Metric) :=
  if s.isEmpty then .error .EmptyString
  else
    match splitOnce ' ' s with
    | none => .error .InvalidFormat
    | some (amount, last) =>
      let unit := unitTokenOf last
      match parseAmount (trimBoth amount) with
      | none => .error (.CustomString "invalid float literal".data)
      | some a =>
        match weightUnitFactor unit with
        | some f => .ok ⟨fracAsU64 (a.mulNat f)⟩
        | none => .error .UnknownUnit

/-- The volume unit alias table of `Volume::from_str` (canonical factor in
1/1000 mL per unit).  The `"rice"` alias is guarded on the original,
unsplit input `orig` containing the substring `"cup"`. -/
def volumeUnitFactor (u : List Char) (orig : List Char) : Option Nat :=
  if u = "ml".data ∨ u = "milliliter".data ∨ u = "millilitre".data then some 1000
  else if u = "cl".data ∨ u = "centiliter".data ∨ u = "centilitre".data then some 10000
  else if u = "dl".data ∨ u = "deciliter".data ∨ u = "decilitre".data then some 100000
  else if u = "l".data ∨ u = "liter".data ∨ u = "litre".data then some 1000000
  else if u = "tsp".data then some Volume.TSP
  else if u = "tbsp".data then some Volume.TBSP
  else if u = "floz".data then some Volume.OUNCE
  else if u = "rice".data ∧ containsSub "cup".data orig then some Volume.RICE_CUP
  else if u = "cup".data then some Volume.CUP
  else if u = "quart".data then some Volume.QUART
  else none

/-- `impl FromStr for Volume` from `src/measurements.rs`. -/
def Volume.from_str (s : List Char) : Except MeasurementError (Volume .Metric) :=
  if s.isEmpty then .error .EmptyString
  else
    match splitOnce ' ' s with
    | none => .error .InvalidFormat
    | some (amount, last) =>
      let unit := unitTokenOf last
      match parseAmount (trimBoth amount) with
      | none => .error (.CustomString "invalid float literal".data)
      | some a =>
        match volumeUnitFactor unit s with
        | some f => .ok ⟨fracAsU64 (a.mulNat f)⟩
        | none => .error .UnknownUnit

/-! ## The tiered display formatters (the four `Display` impls)

Each `Display` impl is an ordered `match` over half-open `u64` ranges.  We
embed it as an ordered list of arms; an arm is a half-open range (a literal
pattern `k` becomes the range `[k, k+1)`) together with the rendering of the
matched value.  A rendering is kept structural: `dec1 n den u` stands for
the source's `write!(f, "{:.1} u", n as f64 / den as f64)` (the exact
decimal digits produced by float formatting are not modelled), `whole q u`
for `write!(f, "{q} u")`, and `fixed s` for a constant label. -/

/-- Structural rendering produced by one display arm. -/
inductive WRender where
  | fixed : List Char → WRender
  | whole : Nat → List Char → WRender
  | dec1 : Nat → Nat → List Char → WRender
  deriving DecidableEq, Repr

/-- One arm of a display `match`: a half-open range `[lo, hi)` (or `[lo, ∞)`
when `hi = none`) and the rendering of the matched value. -/
structure Arm where
  lo : Nat
  hi : Option Nat
  render : Nat → WRender

/-- Membership of a value in an arm's range. -/
def armMem (n : Nat) (a : Arm) : Bool :=
  decide (a.lo ≤ n) &&
    match a.hi with
    | some h => decide (n < h)
    | none => true

/-- First-match lookup over an ordered arm list (the semantics of the
source's `match` statement). -/
def findArm (n : Nat) : List Arm → Option WRender
  | [] => none
  | a :: t => if armMem n a then some (a.render n) else findArm n t

/-- Number of arms of a table whose range contains `n`. -/
def matchCount (t : List Arm) (n : Nat) : Nat :=
  t.countP (fun a => armMem n a)

/-- `impl Display for Weight<Metric>`, arm by arm. -/
def weightMetricArms : List Arm :=
  [⟨0, some 1, fun _ => .fixed "0 g".data⟩,
   ⟨0, some 1000, fun n => .whole n "mg".data⟩,
   ⟨1000, some 1000000, fun n => .whole (n / 1000) "g".data⟩,
   ⟨1000000, some 10000000, fun n => .dec1 n 1000000 "kg".data⟩,
   ⟨10000000, none, fun n => .whole (n / 1000000) "kg".data⟩]

/-- `impl Display for Weight<Imperial>`, arm by arm. -/
def weightImperialArms : List Arm :=
  [⟨0, some 250, fun _ => .fixed "0 oz".data⟩,
   ⟨250, some 500, fun _ => .fixed "1/8 tsp".data⟩,
   ⟨500, some 1000, fun _ => .fixed "1/4 tsp".data⟩,
   ⟨1000, some 2000, fun _ => .fixed "1/2 tsp".data⟩,
   ⟨2000, some 4000, fun _ => .fixed "1 tsp".data⟩,
   ⟨4000, some 8000, fun _ => .fixed "1/2 tbsp".data⟩,
   ⟨8000, some 12000, fun _ => .fixed "1 tbsp".data⟩,
   ⟨12000, some Weight.OUNCE, fun n => .dec1 n Weight.OUNCE "oz".data⟩,
   ⟨Weight.OUNCE, some Weight.OUNCE_LIMIT, fun n => .dec1 n Weight.OUNCE "g".data⟩,
   ⟨Weight.OUNCE_LIMIT, some Weight.POUND_LIMIT, fun n => .dec1 n Weight.POUND "g".data⟩,
   ⟨Weight.POUND_LIMIT, none, fun n => .whole (n / Weight.POUND) "g".data⟩]

/-- `impl Display for Volume<Metric>`, arm by arm. -/
def volumeMetricArms : List Arm :=
  [⟨0, some 500, fun _ => .fixed "0 ml".data⟩,
   ⟨500, some 500000, fun n => .whole (n / 1000) "ml".data⟩,
   ⟨500000, some 5000000, fun n => .dec1 n 1000000 "l".data⟩,
   ⟨5000000, none, fun n => .whole (n / 1000000) "l".data⟩]

/-- `impl Display for Volume<Imperial>`, arm by arm. -/
def volumeImperialArms : List Arm :=
  [⟨0, some Volume.LOWEST_LIMIT, fun _ => .fixed "0 tsp".data⟩,
   ⟨Volume.LOWEST_LIMIT, some Volume.E_TSP_LIMIT, fun _ => .fixed "1/8 tsp".data⟩,
   ⟨Volume.E_TSP_LIMIT, some Volume.Q_TSP_LIMIT, fun _ => .fixed "1/4 tsp".data⟩,
   ⟨Volume.Q_TSP_LIMIT, some Volume.H_TSP_LIMIT, fun _ => .fixed "1/2 tsp".data⟩,
   ⟨Volume.H_TSP_LIMIT, some Volume.TQ_TSP_LIMIT, fun _ => .fixed "3/4 tsp".data⟩,
   ⟨Volume.TQ_TSP_LIMIT, some Volume.TSP_LIMIT, fun _ => .fixed "1 tsp".data⟩,
   ⟨Volume.TSP_LIMIT, some Volume.H_TBSP_LIMIT, fun _ => .fixed "1/2 tbsp".data⟩,
   ⟨Volume.H_TBSP_LIMIT, some Volume.TBSP_LIMIT, fun _ => .fixed "1 tbsp".data⟩,
   ⟨Volume.TBSP_LIMIT, some Volume.OUNCE_LIMIT, fun n => .dec1 n Volume.OUNCE "floz".data⟩,
   ⟨Volume.OUNCE_LIMIT, some Volume.CUP_LIMIT, fun n => .dec1 n Volume.CUP "cups".data⟩,
   ⟨Volume.CUP_LIMIT, some Volume.QUART_LIMIT, fun n => .dec1 n Volume.QUART "quarts".data⟩,
   ⟨Volume.QUART_LIMIT, none, fun n => .whole (n / Volume.QUART) "quarts".data⟩]

/-- Rendering of `Weight<Metric>` for a canonical value `n`. -/
def Weight.displayMetric (n : Nat) : Option WRender :=
  findArm n weightMetricArms

/-- Rendering of `Weight<Imperial>` for a canonical value `n`. -/
def Weight.displayImperial (n : Nat) : Option WRender :=
  findArm n weightImperialArms

/-- Rendering of `Volume<Metric>` for a canonical value `n`. -/
def Volume.displayMetric (n : Nat) : Option WRender :=
  findArm n volumeMetricArms

/-- Rendering of `Volume<Imperial>` for a canonical value `n`. -/
def Volume.displayImperial (n : Nat) : Option WRender :=
  findArm n volumeImperialArms

/-! ## Recipe types and parsers (from `src/recipe_util.rs`) -/

/-- The error enum `RecipeError`. -/
inductive RecipeError where
  | ExpectedTitle : RecipeError
  | ExpectedImageHref : RecipeError
  | ExpectedIngredientsStart : RecipeError
  | ExpectedIngredient : RecipeError
  | ExpectedStepsStart : RecipeError
  | UnexpectedEOF : List Char → RecipeError
  | CustomString : List Char → RecipeError
  deriving DecidableEq, Repr

/-- The sum type `IngredientQuantity<T>` over weight and volume. -/
inductive IngredientQuantity (T : UnitSystem) where
  | Weight : Weight T → IngredientQuantity T
  | Volume : Volume T → IngredientQuantity T
  deriving DecidableEq, Repr

def IngredientQuantity.as_imperial {T : UnitSystem} :
    IngredientQuantity T → IngredientQuantity .Imperial
  | .Weight w => .Weight w.as_imperial
  | .Volume v => .Volume v.as_imperial

def IngredientQuantity.as_metric {T : UnitSystem} :
    IngredientQuantity T → IngredientQuantity .Metric
  | .Weight w => .Weight w.as_metric
  | .Volume v => .Volume v.as_metric

/-- The canonical stored value of a quantity (observation used for the
value-preservation claims; the source reads it via `Weight::get` /
`Volume::get` after matching on the variant). -/
def IngredientQuantity.get {T : UnitSystem} : IngredientQuantity T → Nat
  | .Weight w => w.get
  | .Volume v => v.get

/-- `Ingredient<T>`: a name with an optional quantity. -/
structure Ingredient (T : UnitSystem) where
  ingredient : List Char
  quantity : Option (IngredientQuantity T)
  deriving DecidableEq, Repr

/-- `Step`: one paragraph of instructions. -/
structure Step where
  body : List Char
  deriving DecidableEq, Repr

/-- `Image`: an href. -/
structure Image where
  href : List Char
  deriving DecidableEq, Repr

/-- `Recipe<T>`. -/
structure Recipe (T : UnitSystem) where
  title : List Char
  image : Option Image
  introduction : Option (List Char)
  ingredients : List (Ingredient T)
  steps : List Step
  deriving DecidableEq, Repr

/-- The `s.char_indices().filter(..).skip(1).next()` step of
`Ingredient::from_str`: index of the second space of the line, or the
line's length when there is no second space. -/
def secondSpaceIdx (s : List Char) : Nat :=
  match ((List.range s.length).filter (fun i => s.get? i = some ' ')).get? 1 with
  | some i => i
  | none => s.length

/-- `impl FromStr for Ingredient` from `src/recipe_util.rs`. -/
def Ingredient.from_str (s : List Char) : Except RecipeError (Ingredient .Metric) :=
  if s.isEmpty then .error .ExpectedIngredient
  else
    let amount_i := secondSpaceIdx s
    let amount := trimEndL (s.take amount_i)
    match Weight.from_str amount with
    | .ok m => .ok ⟨trimStartL (s.drop amount_i), some (.Weight m)⟩
    | .error _ =>
      match Volume.from_str amount with
      | .ok v => .ok ⟨trimStartL (s.drop amount_i), some (.Volume v)⟩
      | .error _ => .ok ⟨s, none⟩

/-- Model of Rust `str::split("\n\n")` (structural accumulator form):
`acc` holds the current piece reversed.  Splitting always yields at least
one piece. -/
def splitNNAux (acc : List Char) : List Char → List (List Char)
  | [] => [acc.reverse]
  | [c] => [(c :: acc).reverse]
  | c :: c2 :: t =>
    if c = '\n' ∧ c2 = '\n' then acc.reverse :: splitNNAux [] t
    else splitNNAux (c :: acc) (c2 :: t)

/-- Model of Rust `s.split("\n\n")`, left-to-right and non-overlapping. -/
def splitNN (l : List Char) : List (List Char) :=
  splitNNAux [] l

/-- The blank-line separator `"\n\n"`. -/
def blankSep : List Char := "\n\n".data

/-- The `"---ingredients"` marker. -/
def ingredientsMarker : List Char := "---ingredients".data

/-- The `"---steps"` marker. -/
def stepsMarker : List Char := "---steps".data

/-- The `"image:"` marker. -/
def imageMarker : List Char := "image:".data

/-- The ingredient loop of `Recipe::from_str`, with an explicit fuel
parameter so that the recursion is structural: each iteration consumes a
line and its terminating newline, so the suffix passed to the recursive
call is strictly shorter and a fuel of `s.length + 1` can never run out
(the fuel-exhaustion branch is unreachable for the wrapper below). -/
def parseIngredientsF (fuel : Nat) (s : List Char) :
    Except RecipeError (List (Ingredient .Metric) × List Char) :=
  match fuel with
  | 0 => .error (.CustomString "out of fuel".data)
  | fuel + 1 =>
    if s.head? = some '\n' then .ok ([], s)
    else
      match splitOnce '\n' s with
      | none => .error (.UnexpectedEOF "Ingredient".data)
      | some (line, rest) =>
        match Ingredient.from_str line with
        | .error e => .error e
        | .ok ing =>
          match parseIngredientsF fuel rest with
          | .error e => .error e
          | .ok (more, fin) => .ok (ing :: more, fin)

/-- The `while !s.starts_with('\n')` ingredient loop of `Recipe::from_str`:
parses one newline-terminated ingredient line at a time, returning the
parsed ingredients and the remaining text (which starts with `'\n'`). -/
def parseIngredients (s : List Char) :
    Except RecipeError (List (Ingredient .Metric) × List Char) :=
  parseIngredientsF (s.length + 1) s

/-- The tail of `Recipe::from_str` beginning at the introduction stage:
`title` and `image` have already been parsed, `s` is the remaining text
(already `trim_start`ed). -/
def Recipe.fromIntro (title : List Char) (image : Option Image) (s : List Char) :
    Except RecipeError (Recipe .Metric) :=
  match
    (if ingredientsMarker.isPrefixOf s then
      Except.ok ((none : Option (List Char)), s)
    else
      match findSub blankSep s with
      | none => Except.error RecipeError.ExpectedImageHref
      | some ie => Except.ok (some (trimStartL (s.take ie)), trimStartL (s.drop ie))) with
  | .error e => .error e
  | .ok (introduction, s1) =>
    if ingredientsMarker.isPrefixOf s1 then
      match parseIngredients (trimStartL (s1.drop 14)) with
      | .error e => .error e
      | .ok (ingredients, s2) =>
        let s3 := trimStartL s2
        if stepsMarker.isPrefixOf s3 then
          let s4 := trimBoth (s3.drop 8)
          .ok ⟨title, image, introduction, ingredients, (splitNN s4).map Step.mk⟩
        else .error .ExpectedStepsStart
    else .error .ExpectedIngredientsStart

/-- `impl FromStr for Recipe` from `src/recipe_util.rs`. -/
def Recipe.from_str (s : List Char) : Except RecipeError (Recipe .Metric) :=
  match findSub blankSep s with
  | none => .error .ExpectedTitle
  | some te =>
    let title := s.take te
    let s1 := trimStartL (s.drop te)
    if imageMarker.isPrefixOf s1 then
      match findSub blankSep s1 with
      | none => .error .ExpectedImageHref
      | some ie =>
        Recipe.fromIntro title (some ⟨trimStartL ((s1.take ie).drop 6)⟩)
          (trimStartL (s1.drop ie))
    else
      Recipe.fromIntro title none s1

/-- Refinement variant for the unit-normalisation claim: strips at most ONE
trailing `'s'` (the claim's words), where the source's
`trim_end_matches('s')` strips every trailing `'s'`. -/
def stripOneS (l : List Char) : List Char :=
  if l.getLast? = some 's' then l.dropLast else l

/-- Refinement variant of the unit-token normalisation following the
claim's words (single trailing `'s'` stripped). -/
def unitTokenOfSingleS (last : List Char) : List Char :=
  stripOneS (toLowerL (trimBoth (firstTok last)))

/-- Refinement variant of `Weight::from_str` that differs from
`Weight.from_str` only in using the claim's single-`'s'` normalisation. -/
def weightFromStrSingleS (s : List Char) : Except MeasurementError (Weight .Metric) :=
  if s.isEmpty then .error .EmptyString
  else
    match splitOnce ' ' s with
    | none => .error .InvalidFormat
    | some (amount, last) =>
      let unit := unitTokenOfSingleS last
      match parseAmount (trimBoth amount) with
      | none => .error (.CustomString "invalid float literal".data)
      | some a =>
        match weightUnitFactor unit with
        | some f => .ok ⟨fracAsU64 (a.mulNat f)⟩
        | none => .error .UnknownUnit

/-! ## Breakpoint-table lemmas -/
/-- Executable check that an arm list is a contiguous chain of half-open
ranges starting at `lo` and ending with an unbounded arm. -/
def chainedFromB (lo : Nat) : List Arm → Bool
  | [] => false
  | [a] => a.lo == lo && a.hi == none
  | a :: b :: t =>
    a.lo == lo &&
      match a.hi with
      | some h => decide (lo < h) && chainedFromB h (b :: t)
      | none => false

theorem matchCount_eq_zero_of_lt :
    ∀ (t : List Arm) (m : Nat), chainedFromB m t = true →
      ∀ n, n < m → matchCount t n = 0 := by
  intro t
  induction t with
  | nil => intro m hc; simp [chainedFromB] at hc
  | cons a t ih =>
    intro m hc n hn
    cases t with
    | nil =>
      simp only [chainedFromB, Bool.and_eq_true, beq_iff_eq] at hc
      obtain ⟨h1, _⟩ := hc
      have : armMem n a = false := by
        simp [armMem, h1, Nat.not_le.mpr hn]
      simp [matchCount, List.countP_cons, this]
    | cons b t' =>
      simp only [chainedFromB, Bool.and_eq_true, beq_iff_eq] at hc
      obtain ⟨h1, h2⟩ := hc
      cases hhi : a.hi with
      | none => rw [hhi] at h2; simp at h2
      | some h =>
        rw [hhi] at h2
        simp only [Bool.and_eq_true, decide_eq_true_eq] at h2
        obtain ⟨hlt, hch⟩ := h2
        have ha : armMem n a = false := by
          simp [armMem, h1, Nat.not_le.mpr hn]
        have hrest := ih h hch n (by omega)
        simp [matchCount, List.countP_cons, ha] at hrest ⊢
        exact hrest

theorem matchCount_eq_one_of_chained :
    ∀ (t : List Arm) (m : Nat), chainedFromB m t = true →
      ∀ n, m ≤ n → matchCount t n = 1 := by
  intro t
  induction t with
  | nil => intro m hc; simp [chainedFromB] at hc
  | cons a t ih =>
    intro m hc n hn
    cases t with
    | nil =>
      simp only [chainedFromB, Bool.and_eq_true, beq_iff_eq] at hc
      obtain ⟨h1, h2⟩ := hc
      have : armMem n a = true := by
        simp [armMem, h1, hn, h2]
      simp [matchCount, List.countP_cons, this]
    | cons b t' =>
      simp only [chainedFromB, Bool.and_eq_true, beq_iff_eq] at hc
      obtain ⟨h1, h2⟩ := hc
      cases hhi : a.hi with
      | none => rw [hhi] at h2; simp at h2
      | some h =>
        rw [hhi] at h2
        simp only [Bool.and_eq_true, decide_eq_true_eq] at h2
        obtain ⟨hlt, hch⟩ := h2
        by_cases hlt2 : n < h
        · have ha : armMem n a = true := by
            simp [armMem, h1, hn, hhi, hlt2]
          have hrest := matchCount_eq_zero_of_lt (b :: t') h hch n hlt2
          simp [matchCount, List.countP_cons, ha] at hrest ⊢
          exact hrest
        · have ha : armMem n a = false := by
            simp [armMem, hhi]
            omega
          have hrest := ih h hch n (by omega)
          simp [matchCount, List.countP_cons, ha] at hrest ⊢
          exact hrest

theorem findArm_isSome_of_one_le :
    ∀ (t : List Arm) (n : Nat), 1 ≤ matchCount t n → (findArm n t).isSome = true := by
  intro t
  induction t with
  | nil => intro n h; simp [matchCount] at h
  | cons a t ih =>
    intro n h
    by_cases ha : armMem n a
    · simp [findArm, ha]
    · simp only [matchCount, List.countP_cons, ha] at h
      simp only [findArm, ha, if_neg, Bool.false_eq_true, if_false]
      exact ih n (by simpa [matchCount] using h)

theorem matchCount_weightImperial (n : Nat) : matchCount weightImperialArms n = 1 :=
  matchCount_eq_one_of_chained weightImperialArms 0 (by decide) n (Nat.zero_le n)

theorem matchCount_volumeMetric (n : Nat) : matchCount volumeMetricArms n = 1 :=
  matchCount_eq_one_of_chained volumeMetricArms 0 (by decide) n (Nat.zero_le n)

theorem matchCount_volumeImperial (n : Nat) : matchCount volumeImperialArms n = 1 :=
  matchCount_eq_one_of_chained volumeImperialArms 0 (by decide) n (Nat.zero_le n)

theorem matchCount_weightMetric (n : Nat) (h : n ≠ 0) : matchCount weightMetricArms n = 1 := by
  have harm : armMem n (⟨0, some 1, fun _ => WRender.fixed "0 g".data⟩ : Arm) = false := by
    simp [armMem]; omega
  have hrest := matchCount_eq_one_of_chained (weightMetricArms.drop 1) 0 (by decide) n (Nat.zero_le n)
  have hd : weightMetricArms =
      (⟨0, some 1, fun _ => WRender.fixed "0 g".data⟩ : Arm) :: weightMetricArms.drop 1 := rfl
  rw [matchCount, hd, List.countP_cons]
  simp only [harm, Bool.false_eq_true, if_false, Nat.add_zero]
  exact hrest

theorem chained_lo_le :
    ∀ (t : List Arm) (m : Nat), chainedFromB m t = true → ∀ a ∈ t, m ≤ a.lo := by
  intro t
  induction t with
  | nil => intro m hc; simp [chainedFromB] at hc
  | cons a' t ih =>
    intro m hc a ha
    cases t with
    | nil =>
      rcases List.mem_cons.mp ha with rfl | ha'
      · simp only [chainedFromB, Bool.and_eq_true, beq_iff_eq] at hc
        omega
      · simp at ha'
    | cons b t' =>
      rcases List.mem_cons.mp ha with rfl | ha'
      · simp only [chainedFromB, Bool.and_eq_true, beq_iff_eq] at hc
        omega
      · simp only [chainedFromB, Bool.and_eq_true, beq_iff_eq] at hc
        obtain ⟨h1, h2⟩ := hc
        cases hhi : a'.hi with
        | none => rw [hhi] at h2; simp at h2
        | some h =>
          rw [hhi] at h2
          simp only [Bool.and_eq_true, decide_eq_true_eq] at h2
          exact le_trans (by omega) (ih h h2.2 a ha')

theorem findArm_chained_render :
    ∀ (t : List Arm) (m : Nat), chainedFromB m t = true →
      ∀ (n : Nat) (a : Arm), a ∈ t → armMem n a = true →
        findArm n t = some (a.render n) := by
  intro t
  induction t with
  | nil => intro m hc; simp [chainedFromB] at hc
  | cons a' t ih =>
    intro m hc n a ha hmem
    rcases List.mem_cons.mp ha with rfl | ha'
    · simp [findArm, hmem]
    · cases t with
      | nil => simp at ha'
      | cons b t' =>
        simp only [chainedFromB, Bool.and_eq_true, beq_iff_eq] at hc
        obtain ⟨h1, h2⟩ := hc
        cases hhi : a'.hi with
        | none => rw [hhi] at h2; simp at h2
        | some h =>
          rw [hhi] at h2
          simp only [Bool.and_eq_true, decide_eq_true_eq] at h2
          obtain ⟨hlt, hch⟩ := h2
          have hlo : h ≤ a.lo := chained_lo_le (b :: t') h hch a ha'
          have hge : h ≤ n := by
            have := hmem
            simp only [armMem, Bool.and_eq_true, decide_eq_true_eq] at this
            omega
          have ha'f : armMem n a' = false := by
            simp [armMem, hhi]
            omega
          simp only [findArm, ha'f, Bool.false_eq_true, if_false]
          exact ih h hch n a ha' hmem

/-- For positive values the special literal-`0` arm of the metric weight
table cannot match, so display lookup continues in the remaining arms. -/
theorem weightMetric_display_skip_zero (n : Nat) (hn : 1 ≤ n) :
    Weight.displayMetric n = findArm n (weightMetricArms.drop 1) := by
  have h0 : armMem n (⟨0, some 1, fun _ => WRender.fixed "0 g".data⟩ : Arm) = false := by
    simp [armMem]; omega
  simp only [Weight.displayMetric, weightMetricArms, List.drop, findArm, h0,
    Bool.false_eq_true, if_false]

/-! ## Unit-token normalisation lemmas -/
theorem splitOnceP_space_append : ∀ (a u : List Char), ' ' ∉ a →
    splitOnceP (fun c => c == ' ') (a ++ ' ' :: u) = some (a, u) := by
  intro a
  induction a with
  | nil => intro u _; simp [splitOnceP]
  | cons c t ih =>
    intro u ha
    have hc : (c == ' ') = false := by
      simp only [beq_eq_false_iff_ne, ne_eq]
      exact fun h => ha (h ▸ List.mem_cons_self c t)
    rw [List.cons_append, splitOnceP, hc]
    simp only [Bool.false_eq_true, if_false]
    rw [ih u (fun h => ha (List.mem_cons_of_mem c h))]
    rfl

theorem splitOnce_space_append (a u : List Char) (ha : ' ' ∉ a) :
    splitOnce ' ' (a ++ ' ' :: u) = some (a, u) :=
  splitOnceP_space_append a u ha

theorem splitOnce_space_none : ∀ (u : List Char), ' ' ∉ u →
    splitOnce ' ' u = none := by
  intro u
  induction u with
  | nil => intro _; rfl
  | cons c t ih =>
    intro hu
    have hc : (c == ' ') = false := by
      simp only [beq_eq_false_iff_ne, ne_eq]
      exact fun h => hu (h ▸ List.mem_cons_self c t)
    rw [splitOnce, splitOnceP, hc]
    simp only [Bool.false_eq_true, if_false]
    rw [show splitOnceP (fun c => c == ' ') t = splitOnce ' ' t from rfl,
      ih (fun h => hu (List.mem_cons_of_mem c h))]
    rfl

theorem dropWhile_eq_self_of_not (p : Char → Bool) (l : List Char)
    (h : ∀ c ∈ l, p c = false) : l.dropWhile p = l := by
  cases l with
  | nil => rfl
  | cons c t =>
    simp [List.dropWhile, h c (List.mem_cons_self c t)]

theorem trimBoth_eq_self (u : List Char) (h : ∀ c ∈ u, c.isWhitespace = false) :
    trimBoth u = u := by
  unfold trimBoth trimStartL trimEndL
  rw [dropWhile_eq_self_of_not _ u h]
  rw [dropWhile_eq_self_of_not _ u.reverse (fun c hc => h c (List.mem_reverse.mp hc))]
  exact List.reverse_reverse u

theorem stripTrailingS_append_s (x : List Char) :
    stripTrailingS (x ++ ['s']) = stripTrailingS x := by
  unfold stripTrailingS
  rw [List.reverse_append]
  simp [List.dropWhile]

theorem asciiLower_cases (c : Char) :
    asciiLower c = c ∨ asciiLower c ∈
      ['a','b','c','d','e','f','g','h','i','j','k','l','m',
       'n','o','p','q','r','s','t','u','v','w','x','y','z'] := by
  unfold asciiLower
  split <;> simp

theorem asciiLower_idem (c : Char) : asciiLower (asciiLower c) = asciiLower c := by
  rcases asciiLower_cases c with h | h
  · rw [h, h]
  · generalize hx : asciiLower c = x at h ⊢
    fin_cases h <;> rfl

theorem asciiLower_not_ws (c : Char) (h : c.isWhitespace = false) :
    (asciiLower c).isWhitespace = false := by
  rcases asciiLower_cases c with h2 | h2
  · rw [h2]; exact h
  · generalize hx : asciiLower c = x at h2 ⊢
    fin_cases h2 <;> rfl

theorem toLowerL_idem (u : List Char) : toLowerL (toLowerL u) = toLowerL u := by
  unfold toLowerL
  rw [List.map_map]
  exact List.map_congr_left (fun c _ => asciiLower_idem c)

theorem toLowerL_not_ws (u : List Char) (h : ∀ c ∈ u, c.isWhitespace = false) :
    ∀ c ∈ toLowerL u, c.isWhitespace = false := by
  intro c hc
  rcases List.mem_map.mp hc with ⟨d, hd, rfl⟩
  exact asciiLower_not_ws d (h d hd)

theorem firstTok_of_no_space (u : List Char) (h : ' ' ∉ u) : firstTok u = u := by
  unfold firstTok
  rw [splitOnce_space_none u h]

theorem unitTokenOf_append_s (u : List Char) (h : ∀ c ∈ u, c.isWhitespace = false) :
    unitTokenOf (u ++ ['s']) = unitTokenOf u := by
  have hs : ∀ c ∈ u ++ ['s'], c.isWhitespace = false := by
    intro c hc
    rcases List.mem_append.mp hc with h1 | h1
    · exact h c h1
    · simp only [List.mem_singleton] at h1; subst h1; rfl
  have hns : ' ' ∉ u ++ ['s'] := fun hmem => by
    have := hs ' ' hmem; simp [Char.isWhitespace] at this
  have hnu : ' ' ∉ u := fun hmem => by
    have := h ' ' hmem; simp [Char.isWhitespace] at this
  unfold unitTokenOf
  rw [firstTok_of_no_space _ hns, firstTok_of_no_space _ hnu,
    trimBoth_eq_self _ hs, trimBoth_eq_self _ h]
  unfold toLowerL
  rw [List.map_append]
  rw [show List.map asciiLower ['s'] = ['s'] from rfl]
  exact stripTrailingS_append_s _

theorem unitTokenOf_toLower (u : List Char) (h : ∀ c ∈ u, c.isWhitespace = false) :
    unitTokenOf (toLowerL u) = unitTokenOf u := by
  have hl := toLowerL_not_ws u h
  have hns : ' ' ∉ toLowerL u := fun hmem => by
    have := hl ' ' hmem; simp [Char.isWhitespace] at this
  have hnu : ' ' ∉ u := fun hmem => by
    have := h ' ' hmem; simp [Char.isWhitespace] at this
  unfold unitTokenOf
  rw [firstTok_of_no_space _ hns, firstTok_of_no_space _ hnu,
    trimBoth_eq_self _ hl, trimBoth_eq_self _ h, toLowerL_idem]

theorem append_cons_isEmpty (a u : List Char) : (a ++ ' ' :: u).isEmpty = false := by
  cases a <;> rfl

theorem weight_from_str_unit_congr (a u v : List Char) (ha : ' ' ∉ a)
    (hu : unitTokenOf u = unitTokenOf v) :
    Weight.from_str (a ++ ' ' :: u) = Weight.from_str (a ++ ' ' :: v) := by
  unfold Weight.from_str
  rw [append_cons_isEmpty a u, append_cons_isEmpty a v,
    splitOnce_space_append a u ha, splitOnce_space_append a v ha]
  simp only [Bool.false_eq_true, if_false, hu]

theorem volumeUnitFactor_congr (u o1 o2 : List Char)
    (h : containsSub "cup".data o1 = containsSub "cup".data o2) :
    volumeUnitFactor u o1 = volumeUnitFactor u o2 := by
  unfold volumeUnitFactor
  rw [h]

theorem volume_from_str_unit_congr (a u v : List Char) (ha : ' ' ∉ a)
    (hu : unitTokenOf u = unitTokenOf v)
    (hc : containsSub "cup".data (a ++ ' ' :: u) = containsSub "cup".data (a ++ ' ' :: v)) :
    Volume.from_str (a ++ ' ' :: u) = Volume.from_str (a ++ ' ' :: v) := by
  unfold Volume.from_str
  rw [append_cons_isEmpty a u, append_cons_isEmpty a v,
    splitOnce_space_append a u ha, splitOnce_space_append a v ha]
  simp only [Bool.false_eq_true, if_false, hu]
  rw [volumeUnitFactor_congr _ _ _ hc]


theorem splitNNAux_ne_nil : ∀ (l acc : List Char), splitNNAux acc l ≠ [] := by
  intro l
  induction l with
  | nil => intro acc; simp [splitNNAux]
  | cons c t ih =>
    intro acc
    cases t with
    | nil => simp [splitNNAux]
    | cons c2 t2 =>
      by_cases h : c = '\n' ∧ c2 = '\n'
      · simp [splitNNAux, h]
      · rw [splitNNAux, if_neg h]
        exact ih (c :: acc)

theorem splitNN_ne_nil (l : List Char) : splitNN l ≠ [] :=
  splitNNAux_ne_nil l []

/-- Whether an `Except` result is a success (model of `Result::is_ok`). -/
def isOkE {ε α : Type} : Except ε α → Bool
  | .ok _ => true
  | .error _ => false

theorem fromIntro_steps_ne_nil (title : List Char) (image : Option Image)
    (s : List Char) (r : Recipe .Metric)
    (h : Recipe.fromIntro title image s = .ok r) : r.steps ≠ [] := by
  unfold Recipe.fromIntro at h
  repeat
    first
    | (exact Except.noConfusion h)
    | (split at h)
    | (dsimp only at h)
  all_goals
    first
    | exact Except.noConfusion h
    | (simp only [Except.ok.injEq] at h
       subst h
       simp only [ne_eq, List.map_eq_nil_iff]
       exact splitNN_ne_nil _)

theorem from_str_steps_ne_nil (s : List Char) (r : Recipe .Metric)
    (h : Recipe.from_str s = .ok r) : r.steps ≠ [] := by
  unfold Recipe.from_str at h
  dsimp only at h
  split at h
  · simp at h
  · split at h
    · split at h
      · simp at h
      · exact fromIntro_steps_ne_nil _ _ _ _ h
    · exact fromIntro_steps_ne_nil _ _ _ _ h

/-! ## The claims -/

/-- Claim C1: parsing the document "Tea\n\n---ingredients\n1 cup water\n\n---steps\nBoil it.\n"
succeeds with title "Tea", no image, no introduction, exactly one ingredient
named "water" whose quantity is a Volume with canonical value 236588, and
exactly one step with body "Boil it.". -/
theorem C1_minimal_document :
    Recipe.from_str "Tea\n\n---ingredients\n1 cup water\n\n---steps\nBoil it.\n".data =
      .ok ⟨"Tea".data, none, none,
           [⟨"water".data, some (.Volume ⟨236588⟩)⟩],
           [⟨"Boil it.".data⟩]⟩ := by
  decide

/-- Claim C2: for every Weight, Volume and IngredientQuantity value under
either unit-system tag, `as_imperial` and `as_metric` never change the
stored canonical value, and the round trip preserves it as well. -/
theorem C2_tag_conversion_value_preserving :
    ∀ (T : UnitSystem) (w : Weight T) (v : Volume T) (q : IngredientQuantity T),
      w.as_imperial.get = w.get ∧ w.as_metric.get = w.get ∧
      w.as_metric.as_imperial.get = w.get ∧
      v.as_imperial.get = v.get ∧ v.as_metric.get = v.get ∧
      v.as_metric.as_imperial.get = v.get ∧
      q.as_imperial.get = q.get ∧ q.as_metric.get = q.get ∧
      q.as_metric.as_imperial.get = q.get := by
  intro T w v q
  refine ⟨rfl, rfl, rfl, rfl, rfl, rfl, ?_, ?_, ?_⟩ <;> cases q <;> rfl

/-- Claim C3 counterexample: the canonical value 0 is matched by TWO ranges
of the metric weight table (the literal-`0` arm and the `[0, 1000)` arm),
so it is not matched by exactly one range. -/
theorem C3_counterexample :
    matchCount weightMetricArms 0 = 2 ∧ matchCount weightMetricArms 0 ≠ 1 := by
  decide

/-- Claim C3 (amended): all four display lookups are total on the u64
range, and three of the four breakpoint tables partition it exactly (one
matching range per value); the metric weight table is a partition away from
0, where its extra literal-`0` arm overlaps the `[0, 1000)` arm (first
match wins, so the rendering is still unique). -/
theorem C3_format_total_and_ranges (n : Nat) (h : n < 2 ^ 64) :
    (Weight.displayMetric n).isSome = true ∧
    (Weight.displayImperial n).isSome = true ∧
    (Volume.displayMetric n).isSome = true ∧
    (Volume.displayImperial n).isSome = true ∧
    matchCount weightImperialArms n = 1 ∧
    matchCount volumeMetricArms n = 1 ∧
    matchCount volumeImperialArms n = 1 ∧
    (n ≠ 0 → matchCount weightMetricArms n = 1) ∧
    matchCount weightMetricArms 0 = 2 := by
  refine ⟨?_, ?_, ?_, ?_, matchCount_weightImperial n, matchCount_volumeMetric n,
    matchCount_volumeImperial n, matchCount_weightMetric n, by decide⟩
  · by_cases h0 : n = 0
    · subst h0; decide
    · exact findArm_isSome_of_one_le weightMetricArms n
        (le_of_eq (matchCount_weightMetric n h0).symm)
  · exact findArm_isSome_of_one_le weightImperialArms n
      (le_of_eq (matchCount_weightImperial n).symm)
  · exact findArm_isSome_of_one_le volumeMetricArms n
      (le_of_eq (matchCount_volumeMetric n).symm)
  · exact findArm_isSome_of_one_le volumeImperialArms n
      (le_of_eq (matchCount_volumeImperial n).symm)

/-- Claim C3 witness: the amended statement instantiated at 7. -/
theorem C3_witness :
    (Weight.displayMetric 7).isSome = true ∧
    (Weight.displayImperial 7).isSome = true ∧
    (Volume.displayMetric 7).isSome = true ∧
    (Volume.displayImperial 7).isSome = true ∧
    matchCount weightImperialArms 7 = 1 ∧
    matchCount volumeMetricArms 7 = 1 ∧
    matchCount volumeImperialArms 7 = 1 ∧
    (7 ≠ 0 → matchCount weightMetricArms 7 = 1) ∧
    matchCount weightMetricArms 0 = 2 :=
  C3_format_total_and_ranges 7 (by decide)

/-- Claim C4 counterexample: the canonical value 0 is rendered as "0 g" by
the metric weight formatter, not as "0 mg" as the claim's `[0, 1000) → mg`
clause demands. -/
theorem C4_counterexample :
    Weight.displayMetric 0 = some (.fixed "0 g".data) ∧
    Weight.displayMetric 0 ≠ some (.whole 0 "mg".data) := by
  decide

/-- Claim C4 (amended): the metric weight formatter renders 0 as the fixed
label "0 g"; every n in [1, 1000) as n milligrams; every n in
[1000, 1000000) as n/1000 whole grams; every n in [1000000, 10000000) as
kilograms to one decimal; and every n from 10000000 up as n/1000000 whole
kilograms. -/
theorem C4_weight_metric_formatter (n : Nat) :
    (n = 0 → Weight.displayMetric n = some (.fixed "0 g".data)) ∧
    (1 ≤ n → n < 1000 → Weight.displayMetric n = some (.whole n "mg".data)) ∧
    (1000 ≤ n → n < 1000000 → Weight.displayMetric n = some (.whole (n / 1000) "g".data)) ∧
    (1000000 ≤ n → n < 10000000 → Weight.displayMetric n = some (.dec1 n 1000000 "kg".data)) ∧
    (10000000 ≤ n → Weight.displayMetric n = some (.whole (n / 1000000) "kg".data)) := by
  refine ⟨?_, ?_, ?_, ?_, ?_⟩
  · intro h0; subst h0; decide
  · intro h1 h2
    rw [weightMetric_display_skip_zero n h1]
    exact findArm_chained_render _ 0 (by decide) n
      ⟨0, some 1000, fun n => .whole n "mg".data⟩
      (by simp [weightMetricArms]) (by simp [armMem]; omega)
  · intro h1 h2
    rw [weightMetric_display_skip_zero n (by omega)]
    exact findArm_chained_render _ 0 (by decide) n
      ⟨1000, some 1000000, fun n => .whole (n / 1000) "g".data⟩
      (by simp [weightMetricArms]) (by simp [armMem]; omega)
  · intro h1 h2
    rw [weightMetric_display_skip_zero n (by omega)]
    exact findArm_chained_render _ 0 (by decide) n
      ⟨1000000, some 10000000, fun n => .dec1 n 1000000 "kg".data⟩
      (by simp [weightMetricArms]) (by simp [armMem]; omega)
  · intro h1
    rw [weightMetric_display_skip_zero n (by omega)]
    exact findArm_chained_render _ 0 (by decide) n
      ⟨10000000, none, fun n => .whole (n / 1000000) "kg".data⟩
      (by simp [weightMetricArms]) (by simp [armMem]; omega)

/-- Claim C4 witness: the milligram clause of the amended statement at 500. -/
theorem C4_witness :
    Weight.displayMetric 500 = some (.whole 500 "mg".data) :=
  (C4_weight_metric_formatter 500).2.1 (by decide) (by decide)

/-- Claim C5 counterexample: at the canonical value 28349 (= OUNCE, inside
the claim's `[12000, 8 * OUNCE)` ounce interval) the imperial weight
formatter divides by OUNCE but labels the result "g", not "oz". -/
theorem C5_counterexample :
    Weight.displayImperial 28349 = some (.dec1 28349 Weight.OUNCE "g".data) ∧
    Weight.displayImperial 28349 ≠ some (.dec1 28349 Weight.OUNCE "oz".data) := by
  decide

/-- Claim C5 (amended): the imperial weight formatter renders n in
[12000, OUNCE) as n/OUNCE to one decimal labelled "oz"; n in
[OUNCE, 8 * OUNCE) as n/OUNCE to one decimal but labelled "g"; n in
[8 * OUNCE, 4 * POUND) as n/POUND to one decimal labelled "g"; and n from
4 * POUND up as the whole number n/POUND labelled "g". -/
theorem C5_weight_imperial_formatter (n : Nat) :
    (12000 ≤ n → n < Weight.OUNCE →
      Weight.displayImperial n = some (.dec1 n Weight.OUNCE "oz".data)) ∧
    (Weight.OUNCE ≤ n → n < 8 * Weight.OUNCE →
      Weight.displayImperial n = some (.dec1 n Weight.OUNCE "g".data)) ∧
    (8 * Weight.OUNCE ≤ n → n < 4 * Weight.POUND →
      Weight.displayImperial n = some (.dec1 n Weight.POUND "g".data)) ∧
    (4 * Weight.POUND ≤ n →
      Weight.displayImperial n = some (.whole (n / Weight.POUND) "g".data)) := by
  refine ⟨?_, ?_, ?_, ?_⟩
  · intro h1 h2
    exact findArm_chained_render weightImperialArms 0 (by decide) n
      ⟨12000, some Weight.OUNCE, fun n => .dec1 n Weight.OUNCE "oz".data⟩
      (by simp [weightImperialArms])
      (by simp [armMem, Weight.OUNCE] at *; omega)
  · intro h1 h2
    exact findArm_chained_render weightImperialArms 0 (by decide) n
      ⟨Weight.OUNCE, some Weight.OUNCE_LIMIT, fun n => .dec1 n Weight.OUNCE "g".data⟩
      (by simp [weightImperialArms])
      (by simp [armMem, Weight.OUNCE, Weight.OUNCE_LIMIT] at *; omega)
  · intro h1 h2
    exact findArm_chained_render weightImperialArms 0 (by decide) n
      ⟨Weight.OUNCE_LIMIT, some Weight.POUND_LIMIT, fun n => .dec1 n Weight.POUND "g".data⟩
      (by simp [weightImperialArms])
      (by simp [armMem, Weight.OUNCE, Weight.OUNCE_LIMIT, Weight.POUND,
          Weight.POUND_LIMIT] at *; omega)
  · intro h1
    exact findArm_chained_render weightImperialArms 0 (by decide) n
      ⟨Weight.POUND_LIMIT, none, fun n => .whole (n / Weight.POUND) "g".data⟩
      (by simp [weightImperialArms])
      (by simp [armMem, Weight.POUND, Weight.POUND_LIMIT] at *; omega)

/-- Claim C5 witness: the ounce clause of the amended statement at 20000. -/
theorem C5_witness :
    Weight.displayImperial 20000 = some (.dec1 20000 Weight.OUNCE "oz".data) :=
  (C5_weight_imperial_formatter 20000).1 (by decide) (by decide)

/-- Claim C6 counterexample: the source normalisation strips EVERY trailing
's' (Rust `trim_end_matches('s')`), not a single one: on "1 gss" the code
normalises the token to "g" and parses 1000 mg, while the claim's
single-'s' normalisation ("gs") would fail with UnknownUnit. -/
theorem C6_counterexample :
    Weight.from_str "1 gss".data = .ok ⟨1000⟩ ∧
    weightFromStrSingleS "1 gss".data = .error .UnknownUnit ∧
    Weight.from_str "1 gss".data ≠ weightFromStrSingleS "1 gss".data := by
  decide

/-- Claim C6 (amended): the quantity parsers normalise the unit token by
lowercasing it and stripping ALL trailing 's' characters, so a unit alias
matches case-insensitively and with any number of trailing 's'; in
particular "10000 KGs of cheese" parses to 10000000000 mg.  Appending an
's' to the unit token or lowercasing it never changes the result (for
Volume, provided the rewriting does not change whether the original string
contains "cup", which the rice-cup guard consults). -/
theorem C6_unit_normalisation :
    Weight.from_str "10000 KGs of cheese".data = .ok ⟨10000000000⟩ ∧
    (∀ a u : List Char, ' ' ∉ a → (∀ c ∈ u, c.isWhitespace = false) →
      Weight.from_str (a ++ ' ' :: (u ++ ['s'])) = Weight.from_str (a ++ ' ' :: u) ∧
      Weight.from_str (a ++ ' ' :: toLowerL u) = Weight.from_str (a ++ ' ' :: u)) ∧
    (∀ a u : List Char, ' ' ∉ a → (∀ c ∈ u, c.isWhitespace = false) →
      (containsSub "cup".data (a ++ ' ' :: (u ++ ['s'])) =
          containsSub "cup".data (a ++ ' ' :: u) →
        Volume.from_str (a ++ ' ' :: (u ++ ['s'])) = Volume.from_str (a ++ ' ' :: u)) ∧
      (containsSub "cup".data (a ++ ' ' :: toLowerL u) =
          containsSub "cup".data (a ++ ' ' :: u) →
        Volume.from_str (a ++ ' ' :: toLowerL u) = Volume.from_str (a ++ ' ' :: u))) := by
  refine ⟨by decide, ?_, ?_⟩
  · intro a u ha hu
    exact ⟨weight_from_str_unit_congr a _ _ ha (unitTokenOf_append_s u hu),
      weight_from_str_unit_congr a _ _ ha (unitTokenOf_toLower u hu)⟩
  · intro a u ha hu
    exact ⟨fun hc => volume_from_str_unit_congr a _ _ ha (unitTokenOf_append_s u hu) hc,
      fun hc => volume_from_str_unit_congr a _ _ ha (unitTokenOf_toLower u hu) hc⟩

/-- Claim C6 witness: plural and case invariance instantiated on "2 KG". -/
theorem C6_witness :
    Weight.from_str ("2".data ++ ' ' :: ("KG".data ++ ['s'])) =
      Weight.from_str ("2".data ++ ' ' :: "KG".data) ∧
    Weight.from_str ("2".data ++ ' ' :: toLowerL "KG".data) =
      Weight.from_str ("2".data ++ ' ' :: "KG".data) :=
  C6_unit_normalisation.2.1 "2".data "KG".data (by decide) (by decide)

theorem volumeUnitFactor_rice (o : List Char) :
    volumeUnitFactor "rice".data o =
      if containsSub "cup".data o = true then some Volume.RICE_CUP else none := by
  unfold volumeUnitFactor
  rw [if_neg (by decide), if_neg (by decide), if_neg (by decide), if_neg (by decide),
    if_neg (by decide), if_neg (by decide), if_neg (by decide)]
  by_cases hg : containsSub "cup".data o = true
  · rw [if_pos ⟨rfl, hg⟩, if_pos hg]
  · rw [if_neg (fun h => hg h.2), if_neg hg, if_neg (by decide), if_neg (by decide)]

theorem volumeUnitFactor_cup (o : List Char) :
    volumeUnitFactor "cup".data o = some Volume.CUP := by
  unfold volumeUnitFactor
  rw [if_neg (by decide), if_neg (by decide), if_neg (by decide), if_neg (by decide),
    if_neg (by decide), if_neg (by decide), if_neg (by decide),
    if_neg (fun h => by exact absurd h.1 (by decide)), if_pos rfl]

/-- Claim C7: in `Volume::from_str` the normalised token "rice" is accepted
(with factor RICE_CUP = 180000) exactly when the original, unsplit input
contains the substring "cup", and rejected with UnknownUnit otherwise; the
token "cup" maps to the distinct factor CUP = 236588; and any normalised
token matching no alias fails with UnknownUnit. -/
theorem C7_rice_cup_alias (s a last : List Char) (q : Frac)
    (hs : s.isEmpty = false)
    (hsplit : splitOnce ' ' s = some (a, last))
    (hq : parseAmount (trimBoth a) = some q) :
    (unitTokenOf last = "rice".data →
      (containsSub "cup".data s = true →
        Volume.from_str s = .ok ⟨fracAsU64 (q.mulNat Volume.RICE_CUP)⟩) ∧
      (containsSub "cup".data s = false →
        Volume.from_str s = .error .UnknownUnit)) ∧
    (unitTokenOf last = "cup".data →
      Volume.from_str s = .ok ⟨fracAsU64 (q.mulNat Volume.CUP)⟩) ∧
    (volumeUnitFactor (unitTokenOf last) s = none →
      Volume.from_str s = .error .UnknownUnit) ∧
    Volume.RICE_CUP = 180000 ∧ Volume.CUP = 236588 := by
  have hbase : Volume.from_str s =
      (match volumeUnitFactor (unitTokenOf last) s with
       | some f => .ok ⟨fracAsU64 (q.mulNat f)⟩
       | none => .error .UnknownUnit) := by
    unfold Volume.from_str
    rw [hs]
    simp only [Bool.false_eq_true, if_false]
    rw [hsplit]
    dsimp only
    rw [hq]
  refine ⟨?_, ?_, ?_, rfl, rfl⟩
  · intro ht
    rw [hbase, ht]
    constructor
    · intro hc
      rw [volumeUnitFactor_rice s, if_pos hc]
    · intro hc
      rw [volumeUnitFactor_rice s, if_neg (by rw [hc]; exact Bool.false_ne_true)]
  · intro ht
    rw [hbase, ht, volumeUnitFactor_cup s]
  · intro hn
    rw [hbase, hn]

/-- Claim C7 witness: "1 rice cup" parses as 180000, applying the theorem
at a concrete input. -/
theorem C7_witness :
    Volume.from_str "1 rice cup".data = .ok ⟨fracAsU64 (Frac.mulNat ⟨1, 1⟩ Volume.RICE_CUP)⟩ :=
  ((C7_rice_cup_alias "1 rice cup".data "1".data "rice cup".data ⟨1, 1⟩
    (by decide) (by decide) (by decide)).1 (by decide)).1 (by decide)

/-- Claim C8: `Ingredient::from_str` fails exactly on the empty line (and
then with ExpectedIngredient); on any non-empty line whose quantity
candidate (the text before the second space, trimmed of trailing
whitespace) parses neither as Weight nor as Volume, the whole unchanged
line becomes the ingredient name and the quantity is None. -/
theorem C8_ingredient_line (s : List Char) :
    (∀ e, Ingredient.from_str s = .error e ↔ (s = [] ∧ e = .ExpectedIngredient)) ∧
    (s ≠ [] →
      isOkE (Weight.from_str (trimEndL (s.take (secondSpaceIdx s)))) = false →
      isOkE (Volume.from_str (trimEndL (s.take (secondSpaceIdx s)))) = false →
      Ingredient.from_str s = .ok ⟨s, none⟩) := by
  constructor
  · intro e
    constructor
    · intro h
      unfold Ingredient.from_str at h
      by_cases hs : s.isEmpty
      · rw [if_pos hs] at h
        exact ⟨List.isEmpty_iff.mp hs, (Except.error.inj h).symm⟩
      · rw [if_neg hs] at h
        dsimp only at h
        split at h
        · exact Except.noConfusion h
        · split at h
          · exact Except.noConfusion h
          · exact Except.noConfusion h
    · rintro ⟨rfl, rfl⟩
      rfl
  · intro hne hw hv
    unfold Ingredient.from_str
    rw [if_neg (by simpa [List.isEmpty_iff] using hne)]
    dsimp only
    cases hW : Weight.from_str (trimEndL (s.take (secondSpaceIdx s))) with
    | ok w => rw [hW] at hw; exact absurd hw (by simp [isOkE])
    | error ew =>
      dsimp only
      cases hV : Volume.from_str (trimEndL (s.take (secondSpaceIdx s))) with
      | ok v => rw [hV] at hv; exact absurd hv (by simp [isOkE])
      | error ev => rfl

/-- Claim C8 witness: the line "plain description" (whose quantity
candidate parses as neither Weight nor Volume) becomes a quantity-less
ingredient with the unchanged line as its name. -/
theorem C8_witness :
    Ingredient.from_str "plain description".data =
      .ok ⟨"plain description".data, none⟩ :=
  (C8_ingredient_line "plain description".data).2 (by decide) (by decide) (by decide)

/-- Claim C9: when the introduction stage runs (remaining text does not
start with "---ingredients") and no blank-line separator follows, parsing
fails with ExpectedImageHref — the same variant as the missing image-href
case — regardless of the already-parsed title and image. -/
theorem C9_intro_missing_separator (title : List Char) (image : Option Image)
    (s : List Char) (hm : ingredientsMarker.isPrefixOf s = false)
    (hnn : findSub blankSep s = none) :
    Recipe.fromIntro title image s = .error .ExpectedImageHref := by
  unfold Recipe.fromIntro
  rw [if_neg (by rw [hm]; exact Bool.false_ne_true), hnn]

/-- Claim C9 witness: the theorem applied to the remaining text "Hello". -/
theorem C9_witness :
    Recipe.fromIntro "T".data none "Hello".data = .error .ExpectedImageHref :=
  C9_intro_missing_separator "T".data none "Hello".data (by decide) (by decide)

/-- Claim C10: every successful `Recipe::from_str` run yields a non-empty
steps list (the text after "---steps" is trimmed and split on "\n\n",
which always produces at least one piece); in particular a document ending
immediately after "---steps" parses with exactly one Step whose body is
empty. -/
theorem C10_steps_nonempty :
    (∀ (s : List Char) (r : Recipe .Metric), Recipe.from_str s = .ok r → r.steps ≠ []) ∧
    Recipe.from_str "T\n\n---ingredients\nx\n\n---steps".data =
      .ok ⟨"T".data, none, none, [⟨"x".data, none⟩], [⟨[]⟩]⟩ :=
  ⟨from_str_steps_ne_nil, by decide⟩

/-- Claim C10 witness: the universal part applied to the concrete document
ending right after "---steps". -/
theorem C10_witness :
    (⟨"T".data, none, none, [⟨"x".data, none⟩], [⟨[]⟩]⟩ : Recipe .Metric).steps ≠ [] :=
  C10_steps_nonempty.1 "T\n\n---ingredients\nx\n\n---steps".data _ (by decide)
